import Mathlib

/-!
Shallow embedding of the LIS cron-job scraper core (src/app.py) and proofs
about its duplicate resolution, canonical naming, relevance filtering,
snapshot classification and change detection.

Instants are modelled as minutes on a single linear scale (minutes since
1900-01-01 00:00 of the local Brussels wall clock); the uniform timezone
localization of the source is therefore invisible to the model.  Network
results (the login outcome, the harvested table, the detail-page PTA
lookup) are parameters of the corresponding functions.
-/

namespace LisCron

/-! ## Character and string helpers -/

/-- Whitespace test used for stripping and splitting (ASCII whitespace,
matching the characters the source data can contain). -/
def isWs (c : Char) : Bool := c.isWhitespace

/-- ASCII lower-casing of one character, the fragment of Python lower()
relevant to the markers compared in the source. -/
def lowerChar (c : Char) : Char :=
  if 65 ≤ c.toNat ∧ c.toNat ≤ 90 then Char.ofNat (c.toNat + 32) else c

/-- Lower-case a string. -/
def lowerS (s : String) : String := ⟨s.data.map lowerChar⟩

/-- Drop leading characters satisfying p. -/
def dropLeading (p : Char → Bool) (l : List Char) : List Char := l.dropWhile p

/-- Drop trailing characters satisfying p. -/
def dropTrailing (p : Char → Bool) (l : List Char) : List Char :=
  (l.reverse.dropWhile p).reverse

/-- Strip whitespace from both ends, as Python strip(). -/
def stripWs (l : List Char) : List Char := dropTrailing isWs (dropLeading isWs l)

/-- Python strip() on strings. -/
def trimS (s : String) : String := ⟨stripWs s.data⟩

/-- Does the pattern occur at the head of the list. -/
def leadsWith : List Char → List Char → Bool
  | [], _ => true
  | _ :: _, [] => false
  | a :: ps, b :: ss => a == b && leadsWith ps ss

/-- Does the pattern occur anywhere in the list (Python in operator). -/
def containsSub (s pat : List Char) : Bool :=
  if leadsWith pat s then true
  else match s with
    | [] => false
    | _ :: t => containsSub t pat

/-- Substring test on strings, Python pat in s. -/
def strContains (s pat : String) : Bool := containsSub s.data pat.data

/-- Split a character list at every character satisfying p, keeping empty
pieces, as Python split with an explicit separator. -/
def splitPred (p : Char → Bool) : List Char → List (List Char)
  | [] => [[]]
  | c :: rest =>
    let r := splitPred p rest
    if p c then [] :: r
    else match r with
      | h :: t => (c :: h) :: t
      | [] => [[c]]

/-- Split into maximal whitespace-free words, as Python split() with no
argument; together with a single-space join this is the cleaning step
re.sub of one-or-more whitespace to one space after strip(). -/
def splitWords (l : List Char) : List (List Char) :=
  (splitPred isWs l).filter (fun w => !w.isEmpty)

/-! ## Canonical ship key

The source computes the canonical key of a ship display name as
re.sub of the trailing duplicate marker (d) preceded and followed by
optional whitespace, then strip(); the regex removes the last (d) when
everything after it is whitespace, together with the whitespace run
around it. -/

/-- Does the list end with the three characters of the duplicate marker. -/
def endsWithDMark (l : List Char) : Bool :=
  match l.reverse with
  | ')' :: 'd' :: '(' :: _ => true
  | _ => false

/-- Remove the last three characters. -/
def dropLast3 (l : List Char) : List Char := (l.reverse.drop 3).reverse

/-- Canonicalization of a ship name on character lists. -/
def canonKeyL (l : List Char) : List Char :=
  if endsWithDMark (dropTrailing isWs l) then
    stripWs (dropLast3 (dropTrailing isWs l))
  else stripWs l

/-- Canonical ship key: strip the duplicate marker suffix and surrounding
whitespace, then trim, exactly as the regex substitution in the source. -/
def canonKey (s : String) : String := ⟨canonKeyL s.data⟩

/-! ## Date-time parsing (parse_besteltijd)

The source normalizes whitespace and then applies strptime with format
day/month/two-digit-year hour:minute, returning the sentinel instant
1970-01-01 00:00 when parsing fails or the input is empty. -/

/-- Parsed wall-clock value. -/
structure DT where
  year : Nat
  month : Nat
  day : Nat
  hour : Nat
  minute : Nat
deriving DecidableEq, Repr

/-- Sentinel returned by the tolerant parser on failure. -/
def DEFAULT_TIME : DT := ⟨1970, 1, 1, 0, 0⟩

/-- Numeric value of a digit list. -/
def digitsVal (l : List Char) : Nat :=
  l.foldl (fun a c => 10 * a + (c.toNat - 48)) 0

/-- Parse a 1-2 digit component within the given bounds, as the strptime
regular expressions for day, month, hour and minute. -/
def comp12 (l : List Char) (lo hi : Nat) : Option Nat :=
  if !l.isEmpty && l.length ≤ 2 && l.all Char.isDigit then
    let v := digitsVal l
    if lo ≤ v && v ≤ hi then some v else none
  else none

/-- Parse the date word day/month/two-digit-year; strptime maps two-digit
years 00-68 to the 2000s and 69-99 to the 1900s. -/
def parseDatum (w : List Char) : Option (Nat × Nat × Nat) :=
  match splitPred (fun c => c == '/') w with
  | [ds, ms, ys] =>
    match comp12 ds 1 31, comp12 ms 1 12 with
    | some d, some m =>
      if ys.length == 2 && ys.all Char.isDigit then
        let yy := digitsVal ys
        some (d, m, if yy ≤ 68 then 2000 + yy else 1900 + yy)
      else none
    | _, _ => none
  | _ => none

/-- Parse the time word hour:minute. -/
def parseTijd (w : List Char) : Option (Nat × Nat) :=
  match splitPred (fun c => c == ':') w with
  | [hs, ms] =>
    match comp12 hs 0 23, comp12 ms 0 59 with
    | some h, some m => some (h, m)
    | _, _ => none
  | _ => none

/-- Gregorian leap year test. -/
def isLeap (y : Nat) : Bool := (y % 4 == 0 && y % 100 != 0) || y % 400 == 0

/-- Days in a month. -/
def daysInMonth (y m : Nat) : Nat :=
  if m == 2 then (if isLeap y then 29 else 28)
  else if m == 4 || m == 6 || m == 9 || m == 11 then 30 else 31

/-- Tolerant parser for order times: cleaned input must be exactly a date
word and a time word, with the day valid for the month (the datetime
constructor check); everything else yields the 1970 sentinel. -/
def parse_besteltijd (s : String) : DT :=
  match splitWords s.data with
  | [w1, w2] =>
    match parseDatum w1, parseTijd w2 with
    | some (d, m, y), some (h, mi) =>
      if d ≤ daysInMonth y m then ⟨y, m, d, h, mi⟩ else DEFAULT_TIME
    | _, _ => DEFAULT_TIME
  | _ => DEFAULT_TIME

/-! ## Linear time scale -/

/-- Count of leap years between year 1 and y inclusive. -/
def leapsUpto (y : Nat) : Nat := y / 4 - y / 100 + y / 400

/-- Days from 1900-01-01 to the first day of year y (for y at least 1900;
parsed years are always at least 1969). -/
def daysBeforeYear (y : Nat) : Nat :=
  (y - 1900) * 365 + (leapsUpto (y - 1) - leapsUpto 1899)

/-- Days from the first of the year to the first of month m. -/
def daysBeforeMonth (y m : Nat) : Nat :=
  ((List.range (m - 1)).map (fun i => daysInMonth y (i + 1))).sum

/-- Minutes from 1900-01-01 00:00 to the given wall-clock value. -/
def toMinNat (dt : DT) : Nat :=
  ((daysBeforeYear dt.year + daysBeforeMonth dt.year dt.month + (dt.day - 1)) * 24
    + dt.hour) * 60 + dt.minute

/-- Minutes on the linear scale, as an integer for window arithmetic. -/
def toMin (dt : DT) : Int := (toMinNat dt : Int)

/-- Recover the year and remaining day count from days since 1900. -/
def yearFrom : Nat → Nat → Nat → Nat × Nat
  | 0, y, d => (y, d)
  | fuel + 1, y, d =>
    let dy := if isLeap y then 366 else 365
    if d < dy then (y, d) else yearFrom fuel (y + 1) (d - dy)

/-- Recover the month and remaining day count within a year. -/
def monthFrom : Nat → Nat → Nat → Nat → Nat × Nat
  | 0, _, m, d => (m, d)
  | fuel + 1, y, m, d =>
    let dm := daysInMonth y m
    if d < dm then (m, d) else monthFrom fuel y (m + 1) (d - dm)

/-- Inverse of the linear scale, back to a wall-clock value. -/
def minToDT (n : Nat) : DT :=
  let yd := yearFrom 400 1900 (n / 1440)
  let md := monthFrom 12 yd.1 1 yd.2
  ⟨yd.1, md.1, md.2 + 1, (n / 60) % 24, n % 60⟩

/-- Zero-padded two-digit rendering, as strftime uses for all components
of the format day/month/year hour:minute. -/
def pad2 (n : Nat) : String := if n < 10 then "0" ++ toString n else toString n

/-- Render a wall-clock value with strftime format day/month/two-digit-year
hour:minute. -/
def fmtDT (dt : DT) : String :=
  pad2 dt.day ++ "/" ++ pad2 dt.month ++ "/" ++ pad2 (dt.year % 100) ++ " "
    ++ pad2 dt.hour ++ ":" ++ pad2 dt.minute

/-- Render a minute count on the linear scale. -/
def fmtMin (t : Int) : String := fmtDT (minToDT t.toNat)

/-! ## Data model

One scraped order row.  The harvest fills each field from its table column
when that column exists, so every field is optional; enrichment during the
snapshot pass adds the status flag and the computed arrival estimate. -/

/-- One scraped order (Python dict with the fixed column keys). -/
structure Bestelling where
  type : Option String
  besteltijd : Option String
  etaEtd : Option String
  rta : Option String
  loods : Option String
  schip : Option String
  entryPoint : Option String
  exitPoint : Option String
  reisId : Option String
  statusFlag : Option String
  berekendeEta : Option String
deriving DecidableEq, Repr

/-- Canonical key of the ship name field (empty-name rows never reach the
keyed dictionaries). -/
def sleutelVan (b : Bestelling) : String := canonKey (b.schip.getD "")

/-- Parse the order-time field as the source does via dict get: a missing
field behaves as the empty string and parses to the sentinel. -/
def besteltijdDT (b : Bestelling) : DT := parse_besteltijd (b.besteltijd.getD "")

/-! ## Duplicate resolution (filter_dubbele_schepen)

The source walks the harvested list, keys a dictionary by the canonical
ship name and, on a duplicate key, keeps the stored row unless the new row
has a strictly later parsed order time. -/

/-- Lookup in an insertion-ordered association list (Python dict read). -/
def vind (k : String) : List (String × Bestelling) → Option Bestelling
  | [] => none
  | (k', b) :: rest => if k' = k then some b else vind k rest

/-- Write into an insertion-ordered association list: replace in place or
append at the end (Python dict write). -/
def dictInsert (k : String) (b : Bestelling) :
    List (String × Bestelling) → List (String × Bestelling)
  | [] => [(k, b)]
  | (k', b') :: rest =>
    if k' = k then (k, b) :: rest else (k', b') :: dictInsert k b rest

/-- One step of duplicate resolution.  The except branch of the source is
unreachable for string-typed fields, because the tolerant parser itself
absorbs every parse failure into the sentinel. -/
def dubbeleStap (d : List (String × Bestelling)) (b : Bestelling) :
    List (String × Bestelling) :=
  match b.schip with
  | none => d
  | some s =>
    if s = "" then d
    else
      let key := canonKey s
      match vind key d with
      | some opgeslagen =>
        if toMin (besteltijdDT b) > toMin (besteltijdDT opgeslagen) then
          dictInsert key b d
        else d
      | none => d ++ [(key, b)]

/-- Duplicate resolution: values of the keyed dictionary in insertion
order. -/
def filter_dubbele_schepen (bestellingen : List Bestelling) : List Bestelling :=
  (bestellingen.foldl dubbeleStap []).map Prod.snd

/-! ## Diff relevance check (moet_rapporteren) -/

/-- Does either routing endpoint mention the excluded port. -/
def zeebruggeIn (b : Bestelling) : Bool :=
  strContains (lowerS (b.entryPoint.getD "")) "zeebrugge"
    || strContains (lowerS (b.exitPoint.getD "")) "zeebrugge"

/-- Relevance check applied by the diff engine to each New, Removed or
Changed candidate: the order time must parse to a non-sentinel instant
lying in the per-category window around now, and neither routing endpoint
may mention the excluded port. -/
def moet_rapporteren (nu : Int) (b : Bestelling) : Bool :=
  let bt := parse_besteltijd (trimS (b.besteltijd.getD ""))
  if bt.year = 1970 then false
  else
    let t := toMin bt
    let rapporteer :=
      if b.type = some "I" then decide (nu - 480 ≤ t) && decide (t ≤ nu + 480)
      else if b.type = some "U" then decide (nu ≤ t) && decide (t ≤ nu + 960)
      else if b.type = some "V" then decide (nu ≤ t) && decide (t ≤ nu + 480)
      else true
    rapporteer && !zeebruggeIn b

/-! ## Field-level diff -/

/-- One field comparison: a field present on the new side is reported when
its value differs from the old value read with empty-string default. -/
def diffEntry (k : String) (nv ov : Option String) :
    Option (String × String × String) :=
  match nv with
  | none => none
  | some v => if v = ov.getD "" then none else some (k, ov.getD "", v)

/-- Field-level before/after list over the fixed key set, in the insertion
order of the scraped dict. -/
def diffList (n o : Bestelling) : List (String × String × String) :=
  List.filterMap id
    [diffEntry "Type" n.type o.type,
     diffEntry "Besteltijd" n.besteltijd o.besteltijd,
     diffEntry "ETA/ETD" n.etaEtd o.etaEtd,
     diffEntry "RTA" n.rta o.rta,
     diffEntry "Loods" n.loods o.loods,
     diffEntry "Schip" n.schip o.schip,
     diffEntry "Entry Point" n.entryPoint o.entryPoint,
     diffEntry "Exit Point" n.exitPoint o.exitPoint,
     diffEntry "ReisId" n.reisId o.reisId,
     diffEntry "status_flag" n.statusFlag o.statusFlag,
     diffEntry "berekende_eta" n.berekendeEta o.berekendeEta]

/-- Does the changed-field set intersect the significant set, which holds
exactly the order time and the assigned resource. -/
def sigAny (d : List (String × String × String)) : Bool :=
  (d.map Prod.fst).any (fun k => k == "Besteltijd" || k == "Loods")

/-! ## Change records and the diff engine (vergelijk_bestellingen) -/

/-- One reported change (the Python result dict). -/
structure Wijziging where
  status : String
  schip : Option String
  details : Option Bestelling
  wijzigingen : List (String × String × String)
  wtype : Option String
deriving DecidableEq, Repr

/-- New-ship record. -/
def mkNieuw (n : Bestelling) : Wijziging :=
  { status := "NIEUW", schip := n.schip, details := some n,
    wijzigingen := [], wtype := none }

/-- Removed-ship record. -/
def mkVerwijderd (o : Bestelling) : Wijziging :=
  { status := "VERWIJDERD", schip := o.schip, details := some o,
    wijzigingen := [], wtype := none }

/-- Changed-ship record. -/
def mkGewijzigd (n : Bestelling) (d : List (String × String × String)) :
    Wijziging :=
  { status := "GEWIJZIGD", schip := n.schip, details := none,
    wijzigingen := d, wtype := n.type }

/-- Keyed dictionary of deduplicated orders with truthy ship names. -/
def buildDict (lst : List Bestelling) : List (String × Bestelling) :=
  (filter_dubbele_schepen lst).foldl
    (fun d b =>
      match b.schip with
      | none => d
      | some s => if s = "" then d else dictInsert (canonKey s) b d) []

/-- New records: keys only in the current dictionary, kept when the
relevance check passes. -/
def nieuweW (nu : Int) (od nd : List (String × Bestelling)) : List Wijziging :=
  (nd.map Prod.fst).filterMap (fun k =>
    match vind k od with
    | some _ => none
    | none =>
      match vind k nd with
      | some n => if moet_rapporteren nu n then some (mkNieuw n) else none
      | none => none)

/-- Removed records: keys only in the previous dictionary, kept when the
relevance check passes. -/
def verwijderdW (nu : Int) (od nd : List (String × Bestelling)) : List Wijziging :=
  (od.map Prod.fst).filterMap (fun k =>
    match vind k nd with
    | some _ => none
    | none =>
      match vind k od with
      | some o => if moet_rapporteren nu o then some (mkVerwijderd o) else none
      | none => none)

/-- Changed candidate for one key present on both sides: skip on category
change, report only when the diff is non-empty, a significant field moved
and at least one side passes the relevance check. -/
def handleGewijzigd (nu : Int) (n o : Bestelling) : Option Wijziging :=
  if n.type ≠ o.type then none
  else
    let diff := diffList n o
    if diff.isEmpty then none
    else if sigAny diff then
      if moet_rapporteren nu n || moet_rapporteren nu o then
        some (mkGewijzigd n diff)
      else none
    else none

/-- Changed records over the keys present on both sides. -/
def gewijzigdW (nu : Int) (od nd : List (String × Bestelling)) : List Wijziging :=
  (nd.map Prod.fst).filterMap (fun k =>
    match vind k od with
    | none => none
    | some o =>
      match vind k nd with
      | none => none
      | some n => handleGewijzigd nu n o)

/-- Snapshot diff: canonicalize and deduplicate both sides, then emit the
New, Removed and Changed records. -/
def vergelijk_bestellingen (nu : Int) (oude nieuwe : List Bestelling) :
    List Wijziging :=
  nieuweW nu (buildDict oude) (buildDict nieuwe)
    ++ verwijderdW nu (buildDict oude) (buildDict nieuwe)
    ++ gewijzigdW nu (buildDict oude) (buildDict nieuwe)

/-! ## Snapshot classification (filter_snapshot_schepen)

The per-entity decision of the snapshot filter: the location filter on the
target terminal, the order-time parse with the lock-planning sentinel
bypass, the urgency flag, the per-category time windows and, for shown
inbound ships, the arrival-estimate cascade.  The detail-page lookup is a
parameter, abstracting the network call of the source. -/

/-- Location filter of the snapshot pass. -/
def isMpetRelevant (b : Bestelling) : Bool :=
  let entry := lowerS (b.entryPoint.getD "")
  let exitp := lowerS (b.exitPoint.getD "")
  if b.type = some "I" then strContains exitp "mpet"
  else if b.type = some "U" then strContains entry "mpet"
  else if b.type = some "V" then
    strContains entry "mpet" || strContains exitp "mpet"
  else false

/-- Reference instant for the urgency flag: never escalate once a pilot is
assigned; inbound checks the order time, the others prefer the listed
estimate and fall back to the order time; the sentinel bypass never feeds
the urgency computation. -/
def tijdOmTeChecken (b : Bestelling) (isSluis : Bool) (btA etaA : Option Int) :
    Option Int :=
  if b.loods = some "Loods werd toegewezen" then none
  else if b.type = some "I" then (if isSluis then none else btA)
  else
    match etaA with
    | some t => some t
    | none => if isSluis then none else btA

/-- Urgency flag from the signed minute difference to the reference
instant. -/
def statusFlagVan (nu : Int) (tijd : Option Int) : String :=
  match tijd with
  | none => "normal"
  | some t =>
    let d := t - nu
    if d < 0 then "past_due"
    else if d < 60 then "warning_soon"
    else if d < 90 then "due_soon"
    else "normal"

/-- Outbound window: sentinel bypass, order time in now to now plus sixteen
hours, or listed estimate strictly in the future. -/
def showU (nu : Int) (isSluis : Bool) (btA etaA : Option Int) : Bool :=
  isSluis
    || (match btA with
        | some t => decide (nu ≤ t) && decide (t ≤ nu + 960)
        | none => false)
    || (match etaA with
        | some t => decide (nu < t)
        | none => false)

/-- Inbound window: sentinel bypass or order time within eight hours either
side of now. -/
def showI (nu : Int) (isSluis : Bool) (btA : Option Int) : Bool :=
  isSluis
    || (match btA with
        | some t => decide (nu - 480 ≤ t) && decide (t ≤ nu + 480)
        | none => false)

/-- Shift window: sentinel bypass or order time in now to now plus eight
hours. -/
def showV (nu : Int) (isSluis : Bool) (btA : Option Int) : Bool :=
  isSluis
    || (match btA with
        | some t => decide (nu ≤ t) && decide (t ≤ nu + 480)
        | none => false)

/-- Arrival-estimate cascade for a shown inbound ship: the detail-page
value when the lookup produced one, else the fixed-offset fallback from
the order time keyed on the named approach point, else the absent
marker. -/
def etaVoorInkomend (pta : Option String) (btA : Option Int) (entry : String) :
    String :=
  let e0 := match pta with
    | none => "N/A"
    | some p => if p = "" then "N/A" else p
  if e0 = "N/A" then
    match btA with
    | some t =>
      if strContains entry "wandelaar" then fmtMin (t + 360)
      else if strContains entry "steenbank" then fmtMin (t + 420)
      else "N/A"
    | none => "N/A"
  else e0

/-- Steps three and four of the snapshot loop body, after the order time
has been resolved to the sentinel bypass or an instant. -/
def verwerkNaTijd (nu : Int) (pta : Option String) (b : Bestelling)
    (entry : String) (isSluis : Bool) (btA : Option Int) :
    Bestelling × Option String :=
  let etaN := parse_besteltijd (b.etaEtd.getD "")
  let etaA : Option Int := if etaN.year = 1970 then none else some (toMin etaN)
  let b1 := { b with
    statusFlag := some (statusFlagVan nu (tijdOmTeChecken b isSluis btA etaA)) }
  if b.type = some "U" then
    if showU nu isSluis btA etaA then (b1, some "UITGAAND") else (b1, none)
  else if b.type = some "I" then
    if showI nu isSluis btA then
      ({ b1 with berekendeEta := some (etaVoorInkomend pta btA entry) },
        some "INKOMEND")
    else (b1, none)
  else if b.type = some "V" then
    if showV nu isSluis btA then (b1, some "VERPLAATSING") else (b1, none)
  else (b1, none)

/-- Full snapshot decision for one order: the possibly enriched order and
the bucket it lands in, if any. -/
def verwerk (nu : Int) (pta : Option String) (b : Bestelling) :
    Bestelling × Option String :=
  if !isMpetRelevant b then (b, none)
  else
    match b.besteltijd with
    | none => (b, none)
    | some raw =>
      if raw = "" then (b, none)
      else
        let entry := lowerS (b.entryPoint.getD "")
        let bt := parse_besteltijd raw
        if bt.year = 1970 then
          if strContains (lowerS raw) "sluisplanning" then
            verwerkNaTijd nu pta b entry true none
          else (b, none)
        else verwerkNaTijd nu pta b entry false (some (toMin bt))

/-- Is the order visible in the snapshot, meaning it lands in one of the
three buckets. -/
def zichtbaarInSnapshot (nu : Int) (pta : Option String) (b : Bestelling) :
    Bool :=
  ((verwerk nu pta b).2).isSome

/-! ## Snapshot assembly and the orchestrated run -/

/-- Stable insertion keeping earlier elements first among equals, matching
the stable sort of the source. -/
def voegIn (le : Bestelling → Bestelling → Bool) (x : Bestelling) :
    List Bestelling → List Bestelling
  | [] => [x]
  | y :: ys => if le y x then y :: voegIn le x ys else x :: y :: ys

/-- Stable sort by repeated insertion. -/
def sorteer (le : Bestelling → Bestelling → Bool) (l : List Bestelling) :
    List Bestelling :=
  l.foldl (fun acc x => voegIn le x acc) []

/-- Sort key of the snapshot pass: the parsed order time. -/
def sorteerKey (b : Bestelling) : Int := toMin (besteltijdDT b)

/-- Detail-page lookup guard: a missing or empty voyage identifier skips
the lookup. -/
def ptaLookup (oracle : String → Option String) (b : Bestelling) :
    Option String :=
  match b.reisId with
  | none => none
  | some r => if r = "" then none else oracle r

/-- The three named buckets of a snapshot. -/
structure Gefilterd where
  inkomend : List Bestelling
  uitgaand : List Bestelling
  verplaatsing : List Bestelling
deriving DecidableEq, Repr

/-- Snapshot filter over a harvested list: sort descending by order time,
classify and enrich each order, bucket the visible ones and sort each
bucket ascending.  Also returns the processed list itself, because the
source mutates the harvested rows in place and later persists them. -/
def filter_snapshot_schepen (nu : Int) (oracle : String → Option String)
    (bestellingen : List Bestelling) : Gefilterd × List Bestelling :=
  let gesorteerd := sorteer (fun a b => sorteerKey b ≤ sorteerKey a) bestellingen
  let verwerkt := gesorteerd.map (fun b => verwerk nu (ptaLookup oracle b) b)
  let bucket := fun (naam : String) =>
    sorteer (fun a b => sorteerKey a ≤ sorteerKey b)
      (verwerkt.filterMap (fun p => if p.2 = some naam then some p.1 else none))
  (⟨bucket "INKOMEND", bucket "UITGAAND", bucket "VERPLAATSING"⟩,
    verwerkt.map Prod.fst)

/-- Externally persisted state: the comparison blob, the snapshot history
and the change log. -/
structure Store where
  bestellingen : List Bestelling
  snapshots : List (Int × Gefilterd)
  changes : List (Int × Wijziging)
deriving Repr

/-- One orchestrated run.  Credentials presence, the login outcome and the
harvest are parameters abstracting the network; each detected change is
appended as its own log row, with the formatted text of a row derived
from the stored change record. -/
def mainRun (credsOk loginOk : Bool) (geoogst : List Bestelling)
    (oracle : String → Option String) (nu : Int) (st : Store) : Store :=
  if !credsOk then st
  else
    let oude := st.bestellingen
    if !loginOk then st
    else if geoogst.isEmpty then st
    else
      let sn := filter_snapshot_schepen nu oracle geoogst
      let st1 : Store := { st with snapshots := (nu, sn.1) :: st.snapshots }
      let st2 : Store :=
        if !oude.isEmpty then
          { st1 with changes :=
              ((vergelijk_bestellingen nu oude sn.2).map (fun w => (nu, w)))
                ++ st1.changes }
        else st1
      { st2 with bestellingen := sn.2 }

/-! ## Concrete sample data used by the witnesses -/

/-- A reference instant on the linear scale. -/
def tNu : Int := toMin (parse_besteltijd "05/12/25 14:30")

/-- An inbound order to the target terminal, ordered at the reference
instant. -/
def bBasis : Bestelling :=
  { type := some "I"
    besteltijd := some "05/12/25 14:30"
    etaEtd := none
    rta := none
    loods := some ""
    schip := some "MSC TEST"
    entryPoint := some "Wandelaar"
    exitPoint := some "MPET - K1742"
    reisId := none
    statusFlag := none
    berekendeEta := none }

/-- The same order with a pilot assigned. -/
def bLoods : Bestelling := { bBasis with loods := some "Loods werd toegewezen" }

/-- A second ship, distinct canonical key. -/
def bAnder : Bestelling := { bBasis with schip := some "OTHER SHIP" }

/-- Ordered two hours before the reference instant. -/
def bIn2h : Bestelling := { bBasis with besteltijd := some "05/12/25 12:30" }

/-- Ordered nine hours before the reference instant. -/
def bIn9h : Bestelling := { bBasis with besteltijd := some "05/12/25 05:30" }

/-- Order time text carrying the lock-planning sentinel. -/
def bSluis : Bestelling := { bBasis with besteltijd := some "Sluisplanning 3" }

/-- Unparseable order time text without the sentinel marker. -/
def bLock : Bestelling := { bBasis with besteltijd := some "Lock planning" }

/-- Same ship under a refreshed, later order. -/
def bLater : Bestelling := { bBasis with besteltijd := some "05/12/25 16:00" }

/-- Duplicate pair with unparseable order times. -/
def bGarbage : Bestelling := { bBasis with besteltijd := some "garbage" }

/-- Second unparseable duplicate of the same ship. -/
def bJunk : Bestelling := { bBasis with besteltijd := some "junk" }

/-- An order routed through the excluded port. -/
def bZeebrugge : Bestelling :=
  { bBasis with exitPoint := some "MPET via Zeebrugge" }

/-! ## Lemmas about stripping -/

theorem dropWhile_idem (p : Char → Bool) (l : List Char) :
    (l.dropWhile p).dropWhile p = l.dropWhile p := by
  induction l with
  | nil => rfl
  | cons a t ih =>
    by_cases h : p a
    · simp [List.dropWhile_cons, h, ih]
    · simp [List.dropWhile_cons, h]

theorem dropTrailing_idem (p : Char → Bool) (l : List Char) :
    dropTrailing p (dropTrailing p l) = dropTrailing p l := by
  simp [dropTrailing, dropWhile_idem]

theorem dropTrailing_stripWs (l : List Char) :
    dropTrailing isWs (stripWs l) = stripWs l := by
  simp [stripWs, dropTrailing_idem]

theorem dropWhile_append_single (p : Char → Bool) (u : List Char) (a : Char) :
    (u ++ [a]).dropWhile p = [] ∨
      ∃ v, (u ++ [a]).dropWhile p = v ++ [a] := by
  induction u with
  | nil =>
    by_cases h : p a
    · exact Or.inl (by simp [List.dropWhile_cons, h])
    · exact Or.inr ⟨[], by simp [List.dropWhile_cons, h]⟩
  | cons c u ih =>
    by_cases h : p c
    · simpa [List.dropWhile_cons, h] using ih
    · exact Or.inr ⟨c :: u, by simp [List.dropWhile_cons, h]⟩

theorem dropTrailing_cons (p : Char → Bool) (a : Char) (t : List Char) :
    dropTrailing p (a :: t) = [] ∨
      ∃ t2, dropTrailing p (a :: t) = a :: t2 := by
  unfold dropTrailing
  rcases dropWhile_append_single p t.reverse a with h | ⟨v, h⟩
  · rw [show (a :: t).reverse = t.reverse ++ [a] by simp, h]
    exact Or.inl rfl
  · rw [show (a :: t).reverse = t.reverse ++ [a] by simp, h]
    exact Or.inr ⟨v.reverse, by simp⟩

theorem head_not_ws_of_dropWhile (p : Char → Bool) {a : Char} {t l : List Char}
    (h : l.dropWhile p = a :: t) : p a = false := by
  induction l with
  | nil => simp [List.dropWhile] at h
  | cons c cs ih =>
    by_cases hc : p c
    · exact ih (by simpa [List.dropWhile_cons, hc] using h)
    · rw [List.dropWhile_cons, if_neg (by simp [hc])] at h
      cases h
      simpa using hc

theorem dropWhile_dropTrailing (p : Char → Bool) (l : List Char) :
    (dropTrailing p (l.dropWhile p)).dropWhile p = dropTrailing p (l.dropWhile p) := by
  cases hy : l.dropWhile p with
  | nil => simp [dropTrailing]
  | cons a t =>
    have ha : p a = false := head_not_ws_of_dropWhile p hy
    rcases dropTrailing_cons p a t with h | ⟨t2, h⟩
    · simp [h]
    · rw [h, List.dropWhile_cons, if_neg (by simp [ha])]

theorem stripWs_idem (l : List Char) : stripWs (stripWs l) = stripWs l := by
  unfold stripWs dropLeading
  rw [dropWhile_dropTrailing, dropTrailing_idem]

theorem canonKeyL_rstripped (l : List Char) :
    dropTrailing isWs (canonKeyL l) = canonKeyL l := by
  unfold canonKeyL
  split <;> exact dropTrailing_stripWs _

theorem canonKeyL_stripWs (l : List Char) : stripWs (canonKeyL l) = canonKeyL l := by
  unfold canonKeyL
  split <;> exact stripWs_idem _

theorem canonKeyL_fixed (m : List Char) (hm : dropTrailing isWs m = m)
    (hs : stripWs m = m) (h : endsWithDMark m = false) : canonKeyL m = m := by
  unfold canonKeyL
  rw [hm, if_neg (by simp [h]), hs]

/-- C4, amended.  Canonicalization of a display name is idempotent for
every string whose canonical form does not itself end with the duplicate
marker; the regex substitution of the source removes only the last
marker, so a name carrying two markers loses one per application. -/
theorem claim_C4 (s : String)
    (h : endsWithDMark (canonKey s).data = false) :
    canonKey (canonKey s) = canonKey s := by
  have h2 : endsWithDMark (canonKeyL s.data) = false := h
  show (⟨canonKeyL (canonKeyL s.data)⟩ : String) = ⟨canonKeyL s.data⟩
  rw [canonKeyL_fixed (canonKeyL s.data) (canonKeyL_rstripped _)
    (canonKeyL_stripWs _) h2]

/-- C4 fails as universally quantified: a name ending in two duplicate
markers canonicalizes to a name still ending in one marker, and a second
application strips further. -/
theorem claim_C4_counterexample :
    canonKey (canonKey "A (d) (d)") ≠ canonKey "A (d) (d)" := by decide

/-- Witness instantiating the amended C4 at a single-marker name. -/
theorem claim_C4_witness :
    canonKey (canonKey "Foo (d)") = canonKey "Foo (d)" :=
  claim_C4 "Foo (d)" (by decide)

/-! ## Lemmas about the keyed dictionaries -/

theorem mem_dictInsert {k : String} {b : Bestelling}
    {d : List (String × Bestelling)} {q : String × Bestelling}
    (h : q ∈ dictInsert k b d) : q = (k, b) ∨ q ∈ d := by
  induction d with
  | nil => simpa [dictInsert] using h
  | cons p rest ih =>
    obtain ⟨k', b'⟩ := p
    by_cases hk : k' = k
    · rw [dictInsert, if_pos hk] at h
      rcases List.mem_cons.mp h with h | h
      · exact Or.inl h
      · exact Or.inr (List.mem_cons_of_mem _ h)
    · rw [dictInsert, if_neg hk] at h
      rcases List.mem_cons.mp h with h | h
      · exact Or.inr (h ▸ List.mem_cons_self _ _)
      · rcases ih h with h | h
        · exact Or.inl h
        · exact Or.inr (List.mem_cons_of_mem _ h)

theorem pairwise_dictInsert (k : String) (b : Bestelling)
    {d : List (String × Bestelling)}
    (h : d.Pairwise (fun p q => p.1 ≠ q.1)) :
    (dictInsert k b d).Pairwise (fun p q => p.1 ≠ q.1) := by
  induction d with
  | nil => simp [dictInsert]
  | cons p rest ih =>
    obtain ⟨k', b'⟩ := p
    rw [List.pairwise_cons] at h
    obtain ⟨h1, h2⟩ := h
    by_cases hk : k' = k
    · subst hk
      rw [dictInsert, if_pos rfl]
      exact List.Pairwise.cons (fun q hq => h1 q hq) h2
    · rw [dictInsert, if_neg hk]
      refine List.Pairwise.cons (fun q hq => ?_) (ih h2)
      rcases mem_dictInsert hq with e | hm
      · subst e; exact hk
      · exact h1 q hm

theorem vind_none_not_key {k : String} {d : List (String × Bestelling)}
    (h : vind k d = none) : ∀ p ∈ d, p.1 ≠ k := by
  induction d with
  | nil => intro p hp; cases hp
  | cons q rest ih =>
    obtain ⟨k', b'⟩ := q
    intro p hp
    rw [vind] at h
    by_cases hk : k' = k
    · rw [if_pos hk] at h; cases h
    · rw [if_neg hk] at h
      rcases List.mem_cons.mp hp with e | hm
      · subst e; exact hk
      · exact ih h p hm

/-- Invariant of the deduplication dictionary: keys are pairwise distinct
and every entry is stored under the canonical key of its ship name. -/
def KeysOk (d : List (String × Bestelling)) : Prop :=
  d.Pairwise (fun p q => p.1 ≠ q.1) ∧ ∀ p ∈ d, p.1 = sleutelVan p.2

theorem keysOk_dictInsert {k : String} {b : Bestelling}
    {d : List (String × Bestelling)} (h : KeysOk d) (hk : k = sleutelVan b) :
    KeysOk (dictInsert k b d) := by
  refine ⟨pairwise_dictInsert k b h.1, fun p hp => ?_⟩
  rcases mem_dictInsert hp with e | hm
  · subst e; exact hk
  · exact h.2 p hm

theorem dubbeleStap_inv {d : List (String × Bestelling)} {b : Bestelling}
    (h : KeysOk d) : KeysOk (dubbeleStap d b) := by
  cases hs : b.schip with
  | none => simpa only [dubbeleStap, hs] using h
  | some s =>
    by_cases hse : s = ""
    · have : dubbeleStap d b = d := by simp [dubbeleStap, hs, hse]
      rw [this]; exact h
    · have hkey : canonKey s = sleutelVan b := by
        unfold sleutelVan; rw [hs]; rfl
      cases hv : vind (canonKey s) d with
      | some opgeslagen =>
        by_cases hcmp : toMin (besteltijdDT b) > toMin (besteltijdDT opgeslagen)
        · have : dubbeleStap d b = dictInsert (canonKey s) b d := by
            simp [dubbeleStap, hs, hse, hv, hcmp]
          rw [this]
          exact keysOk_dictInsert h hkey
        · have : dubbeleStap d b = d := by
            simp [dubbeleStap, hs, hse, hv, hcmp]
          rw [this]; exact h
      | none =>
        have : dubbeleStap d b = d ++ [(canonKey s, b)] := by
          simp [dubbeleStap, hs, hse, hv]
        rw [this]
        constructor
        · rw [List.pairwise_append]
          refine ⟨h.1, by simp, fun p hp q hq => ?_⟩
          rcases List.mem_singleton.mp hq with e
          subst e
          exact vind_none_not_key hv p hp
        · intro p hp
          rcases List.mem_append.mp hp with hm | hm
          · exact h.2 p hm
          · rcases List.mem_singleton.mp hm with e
            subst e
            exact hkey

theorem foldl_dubbeleStap_inv (lst : List Bestelling)
    (d : List (String × Bestelling)) (h : KeysOk d) :
    KeysOk (lst.foldl dubbeleStap d) := by
  induction lst generalizing d with
  | nil => exact h
  | cons b rest ih => exact ih (dubbeleStap d b) (dubbeleStap_inv h)

/-- C3 as corrected.  Duplicate resolution keeps at most one order per
canonical key; with two parseable duplicate order times the strictly later
one wins regardless of input order; with two unparseable order times the
first-seen order is kept, because the strictly-greater comparison against
the stored sentinel never replaces the stored row. -/
theorem claim_C3 :
    (∀ lst : List Bestelling,
      (filter_dubbele_schepen lst).Pairwise
        (fun a b => sleutelVan a ≠ sleutelVan b)) ∧
    (∀ b1 b2 : Bestelling, ∀ s1 s2 : String,
      b1.schip = some s1 → s1 ≠ "" → b2.schip = some s2 → s2 ≠ "" →
      canonKey s1 = canonKey s2 →
      (besteltijdDT b1).year ≠ 1970 → (besteltijdDT b2).year ≠ 1970 →
      toMin (besteltijdDT b1) < toMin (besteltijdDT b2) →
      filter_dubbele_schepen [b1, b2] = [b2] ∧
        filter_dubbele_schepen [b2, b1] = [b2]) ∧
    (∀ b1 b2 : Bestelling, ∀ s1 s2 : String,
      b1.schip = some s1 → s1 ≠ "" → b2.schip = some s2 → s2 ≠ "" →
      canonKey s1 = canonKey s2 →
      besteltijdDT b1 = DEFAULT_TIME → besteltijdDT b2 = DEFAULT_TIME →
      filter_dubbele_schepen [b1, b2] = [b1]) := by
  refine ⟨fun lst => ?_, fun b1 b2 s1 s2 h1 hs1 h2 hs2 hk hy1 hy2 hlt => ?_,
    fun b1 b2 s1 s2 h1 hs1 h2 hs2 hk hd1 hd2 => ?_⟩
  · have hinv := foldl_dubbeleStap_inv lst [] ⟨List.Pairwise.nil, by simp⟩
    unfold filter_dubbele_schepen
    rw [List.pairwise_map]
    exact hinv.1.imp_of_mem (fun ha hb hr => by
      rw [← hinv.2 _ ha, ← hinv.2 _ hb]; exact hr)
  · constructor
    · simp [filter_dubbele_schepen, dubbeleStap, h1, h2, hs1, hs2, hk, vind,
        dictInsert, gt_iff_lt, hlt]
    · simp [filter_dubbele_schepen, dubbeleStap, h1, h2, hs1, hs2, hk, vind,
        dictInsert, gt_iff_lt, lt_asymm hlt]
  · simp [filter_dubbele_schepen, dubbeleStap, h1, h2, hs1, hs2, hk, vind,
      dictInsert, gt_iff_lt, hd1, hd2, lt_irrefl]

/-- C3 fails as stated on the last-seen clause: with two same-key rows
whose order times both fail to parse, the first-seen row is kept, not the
last-seen one. -/
theorem claim_C3_counterexample :
    filter_dubbele_schepen [bGarbage, bJunk] ≠ [bJunk] ∧
      filter_dubbele_schepen [bGarbage, bJunk] = [bGarbage] := by
  constructor
  · decide
  · decide

/-- Witness instantiating the corrected C3 at concrete duplicate pairs. -/
theorem claim_C3_witness :
    (filter_dubbele_schepen [bBasis, bLater] = [bLater] ∧
      filter_dubbele_schepen [bLater, bBasis] = [bLater]) ∧
    filter_dubbele_schepen [bGarbage, bJunk] = [bGarbage] :=
  ⟨claim_C3.2.1 bBasis bLater "MSC TEST" "MSC TEST" rfl (by decide) rfl
      (by decide) rfl (by decide) (by decide) (by decide),
    claim_C3.2.2 bGarbage bJunk "MSC TEST" "MSC TEST" rfl (by decide) rfl
      (by decide) rfl (by decide) (by decide)⟩

/-! ## Lemmas about the diff engine -/

theorem diffEntry_self (k : String) (v : Option String) :
    diffEntry k v v = none := by
  cases v <;> simp [diffEntry]

theorem diffList_self (b : Bestelling) : diffList b b = [] := by
  simp [diffList, diffEntry_self]

theorem handleGewijzigd_self (nu : Int) (b : Bestelling) :
    handleGewijzigd nu b b = none := by
  simp [handleGewijzigd, diffList_self]

theorem mem_nieuweW {nu : Int} {od nd : List (String × Bestelling)}
    {w : Wijziging} (h : w ∈ nieuweW nu od nd) :
    ∃ k n, vind k od = none ∧ vind k nd = some n ∧
      moet_rapporteren nu n = true ∧ w = mkNieuw n := by
  unfold nieuweW at h
  rw [List.mem_filterMap] at h
  obtain ⟨k, _, hf⟩ := h
  refine ⟨k, ?_⟩
  cases hvo : vind k od with
  | some x => simp only [hvo] at hf; cases hf
  | none =>
    simp only [hvo] at hf
    cases hvn : vind k nd with
    | none => simp only [hvn] at hf; cases hf
    | some n =>
      simp only [hvn] at hf
      by_cases hr : moet_rapporteren nu n = true
      · rw [if_pos hr] at hf
        cases hf
        exact ⟨n, rfl, rfl, hr, rfl⟩
      · rw [if_neg hr] at hf; cases hf

theorem mem_verwijderdW {nu : Int} {od nd : List (String × Bestelling)}
    {w : Wijziging} (h : w ∈ verwijderdW nu od nd) :
    ∃ k o, vind k nd = none ∧ vind k od = some o ∧
      moet_rapporteren nu o = true ∧ w = mkVerwijderd o := by
  unfold verwijderdW at h
  rw [List.mem_filterMap] at h
  obtain ⟨k, _, hf⟩ := h
  refine ⟨k, ?_⟩
  cases hvn : vind k nd with
  | some x => simp only [hvn] at hf; cases hf
  | none =>
    simp only [hvn] at hf
    cases hvo : vind k od with
    | none => simp only [hvo] at hf; cases hf
    | some o =>
      simp only [hvo] at hf
      by_cases hr : moet_rapporteren nu o = true
      · rw [if_pos hr] at hf
        cases hf
        exact ⟨o, rfl, rfl, hr, rfl⟩
      · rw [if_neg hr] at hf; cases hf

theorem mem_gewijzigdW {nu : Int} {od nd : List (String × Bestelling)}
    {w : Wijziging} (h : w ∈ gewijzigdW nu od nd) :
    ∃ k n o, vind k od = some o ∧ vind k nd = some n ∧
      handleGewijzigd nu n o = some w := by
  unfold gewijzigdW at h
  rw [List.mem_filterMap] at h
  obtain ⟨k, _, hf⟩ := h
  refine ⟨k, ?_⟩
  cases hvo : vind k od with
  | none => simp only [hvo] at hf; cases hf
  | some o =>
    simp only [hvo] at hf
    cases hvn : vind k nd with
    | none => simp only [hvn] at hf; cases hf
    | some n => simp only [hvn] at hf; exact ⟨n, o, rfl, rfl, hf⟩

theorem handleGewijzigd_eq_some {nu : Int} {n o : Bestelling} {w : Wijziging}
    (h : handleGewijzigd nu n o = some w) :
    n.type = o.type ∧ sigAny (diffList n o) = true ∧
      (moet_rapporteren nu n || moet_rapporteren nu o) = true ∧
      w = mkGewijzigd n (diffList n o) := by
  unfold handleGewijzigd at h
  by_cases ht : n.type = o.type
  · rw [if_neg (by simpa using ht)] at h
    by_cases he : (diffList n o).isEmpty
    · rw [if_pos he] at h; cases h
    · rw [if_neg he] at h
      by_cases hs : sigAny (diffList n o)
      · rw [if_pos hs] at h
        by_cases hr : (moet_rapporteren nu n || moet_rapporteren nu o) = true
        · rw [if_pos hr] at h
          cases h
          exact ⟨ht, hs, hr, rfl⟩
        · rw [if_neg hr] at h; cases h
      · rw [if_neg hs] at h; cases h
  · rw [if_pos (by simpa using ht)] at h; cases h

theorem mem_vergelijk {nu : Int} {oude nieuwe : List Bestelling} {w : Wijziging}
    (h : w ∈ vergelijk_bestellingen nu oude nieuwe) :
    w ∈ nieuweW nu (buildDict oude) (buildDict nieuwe) ∨
      w ∈ verwijderdW nu (buildDict oude) (buildDict nieuwe) ∨
      w ∈ gewijzigdW nu (buildDict oude) (buildDict nieuwe) := by
  unfold vergelijk_bestellingen at h
  rcases List.mem_append.mp h with h | h
  · rcases List.mem_append.mp h with h | h
    · exact Or.inl h
    · exact Or.inr (Or.inl h)
  · exact Or.inr (Or.inr h)

theorem sigAny_etaEtd (o : Bestelling) (x : Option String) :
    sigAny (diffList { o with etaEtd := x } o) = false := by
  cases hx : diffEntry "ETA/ETD" x o.etaEtd with
  | none => simp [diffList, diffEntry_self, hx, sigAny]
  | some e =>
    have he : e.1 = "ETA/ETD" := by
      cases x with
      | none => simp [diffEntry] at hx
      | some v =>
        by_cases hv : v = o.etaEtd.getD ""
        · simp [diffEntry, hv] at hx
        · simp [diffEntry, hv] at hx
          subst hx
          rfl
    simp [diffList, diffEntry_self, hx, sigAny, he]

theorem handleGewijzigd_etaEtd (nu : Int) (o : Bestelling) (x : Option String) :
    handleGewijzigd nu { o with etaEtd := x } o = none := by
  have hsig := sigAny_etaEtd o x
  simp [handleGewijzigd, hsig]

/-- Diff of two singleton sets sharing the ship name is empty whenever the
changed-key handler suppresses the pair. -/
theorem vergelijk_single (nu : Int) (n o : Bestelling)
    (hschip : n.schip = o.schip) (hnone : handleGewijzigd nu n o = none) :
    vergelijk_bestellingen nu [o] [n] = [] := by
  cases ho : o.schip with
  | none =>
    simp [vergelijk_bestellingen, buildDict, filter_dubbele_schepen,
      dubbeleStap, ho, hschip, nieuweW, verwijderdW, gewijzigdW]
  | some s =>
    by_cases hs : s = ""
    · simp [vergelijk_bestellingen, buildDict, filter_dubbele_schepen,
        dubbeleStap, ho, hschip, hs, nieuweW, verwijderdW, gewijzigdW]
    · simp [vergelijk_bestellingen, buildDict, filter_dubbele_schepen,
        dubbeleStap, ho, hschip, hs, nieuweW, verwijderdW, gewijzigdW, vind,
        dictInsert, hnone]

/-- C1.  A Changed record arises only from a key on both sides whose
changed-field set meets the significant set of order time and assigned
resource while at least one side passes the relevance check; and a change
touching only the listed estimate, order time equal, produces no record
at all. -/
theorem claim_C1 :
    (∀ (nu : Int) (oude nieuwe : List Bestelling) (w : Wijziging),
      w ∈ vergelijk_bestellingen nu oude nieuwe → w.status = "GEWIJZIGD" →
      ∃ n o : Bestelling, w.wijzigingen = diffList n o ∧
        sigAny (diffList n o) = true ∧
        (moet_rapporteren nu n || moet_rapporteren nu o) = true) ∧
    (∀ (nu : Int) (o : Bestelling) (x : Option String),
      vergelijk_bestellingen nu [o] [{ o with etaEtd := x }] = []) := by
  constructor
  · intro nu oude nieuwe w hw hst
    rcases mem_vergelijk hw with h | h | h
    · obtain ⟨k, n, _, _, _, he⟩ := mem_nieuweW h
      rw [he] at hst
      simp [mkNieuw] at hst
    · obtain ⟨k, o, _, _, _, he⟩ := mem_verwijderdW h
      rw [he] at hst
      simp [mkVerwijderd] at hst
    · obtain ⟨k, n, o, _, _, hh⟩ := mem_gewijzigdW h
      obtain ⟨_, hsig, hrap, he⟩ := handleGewijzigd_eq_some hh
      exact ⟨n, o, by rw [he]; rfl, hsig, hrap⟩
  · intro nu o x
    exact vergelijk_single nu _ o rfl (handleGewijzigd_etaEtd nu o x)

/-- Witness for C1: a concrete pilot-assignment change is reported, and
the conclusion names its significant field with a relevant side. -/
theorem claim_C1_witness :
    ∃ n o : Bestelling,
      (mkGewijzigd bLoods (diffList bLoods bBasis)).wijzigingen = diffList n o ∧
        sigAny (diffList n o) = true ∧
        (moet_rapporteren tNu n || moet_rapporteren tNu o) = true :=
  claim_C1.1 tNu [bBasis] [bLoods] (mkGewijzigd bLoods (diffList bLoods bBasis))
    (by decide) (by decide)

/-- C2.  A New record arises only from a key absent on the previous side
whose current entity passes the relevance check, dually for Removed; and
the concrete two-ship scenario yields exactly one New record for the
added visible ship and nothing for the unchanged one. -/
theorem claim_C2 :
    (∀ (nu : Int) (oude nieuwe : List Bestelling) (w : Wijziging),
      w ∈ vergelijk_bestellingen nu oude nieuwe → w.status = "NIEUW" →
      ∃ k n, vind k (buildDict oude) = none ∧
        vind k (buildDict nieuwe) = some n ∧
        moet_rapporteren nu n = true ∧ w = mkNieuw n) ∧
    (∀ (nu : Int) (oude nieuwe : List Bestelling) (w : Wijziging),
      w ∈ vergelijk_bestellingen nu oude nieuwe → w.status = "VERWIJDERD" →
      ∃ k o, vind k (buildDict nieuwe) = none ∧
        vind k (buildDict oude) = some o ∧
        moet_rapporteren nu o = true ∧ w = mkVerwijderd o) ∧
    (∀ (nu : Int) (a b : Bestelling) (sa sb : String),
      a.schip = some sa → sa ≠ "" → b.schip = some sb → sb ≠ "" →
      canonKey sa ≠ canonKey sb → moet_rapporteren nu b = true →
      vergelijk_bestellingen nu [a] [a, b] = [mkNieuw b]) := by
  refine ⟨fun nu oude nieuwe w hw hst => ?_,
    fun nu oude nieuwe w hw hst => ?_,
    fun nu a b sa sb ha hsa hb hsb hk hr => ?_⟩
  · rcases mem_vergelijk hw with h | h | h
    · exact mem_nieuweW h
    · obtain ⟨k, o, _, _, _, he⟩ := mem_verwijderdW h
      rw [he] at hst
      simp [mkVerwijderd] at hst
    · obtain ⟨k, n, o, _, _, hh⟩ := mem_gewijzigdW h
      obtain ⟨_, _, _, he⟩ := handleGewijzigd_eq_some hh
      rw [he] at hst
      simp [mkGewijzigd] at hst
  · rcases mem_vergelijk hw with h | h | h
    · obtain ⟨k, n, _, _, _, he⟩ := mem_nieuweW h
      rw [he] at hst
      simp [mkNieuw] at hst
    · exact mem_verwijderdW h
    · obtain ⟨k, n, o, _, _, hh⟩ := mem_gewijzigdW h
      obtain ⟨_, _, _, he⟩ := handleGewijzigd_eq_some hh
      rw [he] at hst
      simp [mkGewijzigd] at hst
  · have hkk : ¬(canonKey sa = canonKey sb) := hk
    simp [vergelijk_bestellingen, buildDict, filter_dubbele_schepen,
      dubbeleStap, ha, hb, hsa, hsb, hkk, nieuweW, verwijderdW, gewijzigdW,
      vind, dictInsert, hr, handleGewijzigd_self, mkNieuw]

/-- Witness for C2: the analysis applied to a run that reports one new
ship, and the concrete scenario with a fresh visible ship. -/
theorem claim_C2_witness :
    (∃ k n, vind k (buildDict []) = none ∧
      vind k (buildDict [bBasis]) = some n ∧
      moet_rapporteren tNu n = true ∧ mkNieuw bBasis = mkNieuw n) ∧
    vergelijk_bestellingen tNu [bBasis] [bBasis, bAnder] = [mkNieuw bAnder] :=
  ⟨claim_C2.1 tNu [] [bBasis] (mkNieuw bBasis) (by decide) rfl,
    claim_C2.2.2 tNu bBasis bAnder "MSC TEST" "OTHER SHIP" rfl (by decide) rfl
      (by decide) (by decide) (by decide)⟩

/-- C5.  The diff of two identical harvests is empty: both sides build the
same keyed dictionary, no key is one-sided, and every common key compares
an entity against itself. -/
theorem claim_C5 (nu : Int) (s : List Bestelling) :
    vergelijk_bestellingen nu s s = [] := by
  unfold vergelijk_bestellingen
  have h1 : nieuweW nu (buildDict s) (buildDict s) = [] := by
    unfold nieuweW
    refine List.filterMap_eq_nil_iff.mpr fun k _ => ?_
    cases hv : vind k (buildDict s) <;> simp [hv]
  have h2 : verwijderdW nu (buildDict s) (buildDict s) = [] := by
    unfold verwijderdW
    refine List.filterMap_eq_nil_iff.mpr fun k _ => ?_
    cases hv : vind k (buildDict s) <;> simp [hv]
  have h3 : gewijzigdW nu (buildDict s) (buildDict s) = [] := by
    unfold gewijzigdW
    refine List.filterMap_eq_nil_iff.mpr fun k _ => ?_
    cases hv : vind k (buildDict s) <;> simp [hv, handleGewijzigd_self]
  rw [h1, h2, h3]
  rfl

/-- C10.  An order whose entry or exit point mentions the excluded port
never passes the diff relevance check: it yields no New or Removed record,
and a Changed record for its key forces the other side of the pair past
the relevance check. -/
theorem claim_C10 :
    (∀ (nu : Int) (b : Bestelling),
      zeebruggeIn b = true → moet_rapporteren nu b = false) ∧
    (∀ (nu : Int) (oude nieuwe : List Bestelling) (w : Wijziging),
      w ∈ vergelijk_bestellingen nu oude nieuwe →
      w.status = "NIEUW" ∨ w.status = "VERWIJDERD" →
      ∀ b, w.details = some b → zeebruggeIn b = false) ∧
    (∀ (nu : Int) (oude nieuwe : List Bestelling) (w : Wijziging),
      w ∈ vergelijk_bestellingen nu oude nieuwe → w.status = "GEWIJZIGD" →
      ∃ n o : Bestelling, w = mkGewijzigd n (diffList n o) ∧
        (zeebruggeIn n = true → moet_rapporteren nu o = true) ∧
        (zeebruggeIn o = true → moet_rapporteren nu n = true)) := by
  have hz : ∀ (nu : Int) (b : Bestelling),
      zeebruggeIn b = true → moet_rapporteren nu b = false := by
    intro nu b hb
    simp [moet_rapporteren, hb]
  refine ⟨hz, fun nu oude nieuwe w hw hst b hd => ?_,
    fun nu oude nieuwe w hw hst => ?_⟩
  · rcases mem_vergelijk hw with h | h | h
    · obtain ⟨k, n, _, _, hr, he⟩ := mem_nieuweW h
      rw [he] at hd
      obtain rfl : n = b := by simpa [mkNieuw] using hd
      cases hb : zeebruggeIn n
      · rfl
      · rw [hz nu n hb] at hr; cases hr
    · obtain ⟨k, o, _, _, hr, he⟩ := mem_verwijderdW h
      rw [he] at hd
      obtain rfl : o = b := by simpa [mkVerwijderd] using hd
      cases hb : zeebruggeIn o
      · rfl
      · rw [hz nu o hb] at hr; cases hr
    · obtain ⟨k, n, o, _, _, hh⟩ := mem_gewijzigdW h
      obtain ⟨_, _, _, he⟩ := handleGewijzigd_eq_some hh
      rw [he] at hst
      rcases hst with hst | hst <;> simp [mkGewijzigd] at hst
  · rcases mem_vergelijk hw with h | h | h
    · obtain ⟨k, n, _, _, _, he⟩ := mem_nieuweW h
      rw [he] at hst
      simp [mkNieuw] at hst
    · obtain ⟨k, o, _, _, _, he⟩ := mem_verwijderdW h
      rw [he] at hst
      simp [mkVerwijderd] at hst
    · obtain ⟨k, n, o, _, _, hh⟩ := mem_gewijzigdW h
      obtain ⟨_, _, hrap, he⟩ := handleGewijzigd_eq_some hh
      refine ⟨n, o, he, fun hzn => ?_, fun hzo => ?_⟩
      · rcases Bool.or_eq_true_iff.mp hrap with hr | hr
        · rw [hz nu n hzn] at hr; cases hr
        · exact hr
      · rcases Bool.or_eq_true_iff.mp hrap with hr | hr
        · exact hr
        · rw [hz nu o hzo] at hr; cases hr

/-- Witness for C10: a concrete order through the excluded port fails the
relevance check, and a run that reports a new ship reports one with clean
routing. -/
theorem claim_C10_witness :
    moet_rapporteren tNu bZeebrugge = false ∧
      zeebruggeIn bBasis = false :=
  ⟨claim_C10.1 tNu bZeebrugge (by decide),
    claim_C10.2.1 tNu [] [bBasis] (mkNieuw bBasis) (by decide) (Or.inl rfl)
      bBasis rfl⟩

/-! ## Lemmas about the snapshot classification -/

theorem mpet_type {b : Bestelling} (h : isMpetRelevant b = true) :
    b.type = some "I" ∨ b.type = some "U" ∨ b.type = some "V" := by
  unfold isMpetRelevant at h
  split_ifs at h with h1 h2 h3
  · exact Or.inl h1
  · exact Or.inr (Or.inl h2)
  · exact Or.inr (Or.inr h3)

theorem verwerk_reduce {nu : Int} {pta : Option String} {b : Bestelling}
    {raw : String} (hm : isMpetRelevant b = true) (hb : b.besteltijd = some raw)
    (hy : (parse_besteltijd raw).year ≠ 1970) :
    verwerk nu pta b =
      verwerkNaTijd nu pta b (lowerS (b.entryPoint.getD "")) false
        (some (toMin (parse_besteltijd raw))) := by
  have hraw : ¬(raw = "") := fun e => hy (by rw [e]; rfl)
  simp [verwerk, hm, hb, hraw, hy]

/-- C6.  For an MPET-relevant inbound order with a parseable non-sentinel
order time, snapshot visibility holds exactly when the order time lies in
the symmetric eight-hour window around now; concretely, two hours in the
past is visible and nine hours in the past is not. -/
theorem claim_C6 :
    (∀ (nu : Int) (pta : Option String) (b : Bestelling) (raw : String),
      b.type = some "I" → isMpetRelevant b = true → b.besteltijd = some raw →
      (parse_besteltijd raw).year ≠ 1970 →
      (zichtbaarInSnapshot nu pta b = true ↔
        nu - 480 ≤ toMin (parse_besteltijd raw) ∧
          toMin (parse_besteltijd raw) ≤ nu + 480)) ∧
    zichtbaarInSnapshot tNu none bIn2h = true ∧
    zichtbaarInSnapshot tNu none bIn9h = false := by
  refine ⟨fun nu pta b raw ht hm hb hy => ?_, by decide, by decide⟩
  have h2 : zichtbaarInSnapshot nu pta b =
      showI nu false (some (toMin (parse_besteltijd raw))) := by
    unfold zichtbaarInSnapshot
    rw [verwerk_reduce hm hb hy]
    by_cases hs : showI nu false (some (toMin (parse_besteltijd raw))) = true
    · rw [hs]; simp [verwerkNaTijd, ht, hs]
    · rw [Bool.not_eq_true] at hs
      rw [hs]; simp [verwerkNaTijd, ht, hs]
  rw [h2]
  simp [showI]

/-- Witness for C6: the window equivalence instantiated at the two-hour
case. -/
theorem claim_C6_witness :
    zichtbaarInSnapshot tNu none bIn2h = true ↔
      tNu - 480 ≤ toMin (parse_besteltijd "05/12/25 12:30") ∧
        toMin (parse_besteltijd "05/12/25 12:30") ≤ tNu + 480 :=
  claim_C6.1 tNu none bIn2h "05/12/25 12:30" rfl (by decide) rfl (by decide)

/-- C7.  A relevant order whose order-time text maps to the sentinel is
visible exactly when the text carries the lock-planning marker, so the
marker bypasses every time window while other unparseable texts are
dropped before any window check; the named date text parses to its
instant and the English marker text parses to the sentinel. -/
theorem claim_C7 :
    (∀ (nu : Int) (pta : Option String) (b : Bestelling) (raw : String),
      isMpetRelevant b = true → b.besteltijd = some raw → raw ≠ "" →
      (parse_besteltijd raw).year = 1970 →
      zichtbaarInSnapshot nu pta b =
        strContains (lowerS raw) "sluisplanning") ∧
    parse_besteltijd "05/12/25 14:30" = ⟨2025, 12, 5, 14, 30⟩ ∧
    parse_besteltijd "Lock planning" = DEFAULT_TIME ∧
    zichtbaarInSnapshot tNu none bSluis = true ∧
    zichtbaarInSnapshot tNu none bLock = false := by
  refine ⟨fun nu pta b raw hm hb hraw hy => ?_, by decide, by decide,
    by decide, by decide⟩
  unfold zichtbaarInSnapshot
  have hred : verwerk nu pta b =
      (if strContains (lowerS raw) "sluisplanning" then
        verwerkNaTijd nu pta b (lowerS (b.entryPoint.getD "")) true none
      else (b, none)) := by
    simp [verwerk, hm, hb, hraw, hy]
  rw [hred]
  cases hc : strContains (lowerS raw) "sluisplanning"
  · simp
  · simp only [if_pos rfl, ite_true]
    rcases mpet_type hm with ht | ht | ht <;>
      simp [verwerkNaTijd, ht, showU, showI, showV]

/-- Witness for C7: the sentinel equation instantiated at the concrete
lock-planning order. -/
theorem claim_C7_witness :
    zichtbaarInSnapshot tNu none bSluis =
      strContains (lowerS "Sluisplanning 3") "sluisplanning" :=
  claim_C7.1 tNu none bSluis "Sluisplanning 3" (by decide) rfl (by decide)
    (by decide)

/-- C8.  For a shown inbound order the arrival-estimate cascade is
strictly ordered: a value produced by the detail-page lookup becomes the
estimate and the offset fallback never overrides it; with no lookup value
the estimate is order time plus six hours for the wandelaar approach,
plus seven hours for the steenbank approach and the absent marker
otherwise; concretely a 14:30 wandelaar order gets the 20:30 estimate. -/
theorem claim_C8 :
    (∀ (nu : Int) (b : Bestelling) (raw p : String),
      b.type = some "I" → isMpetRelevant b = true → b.besteltijd = some raw →
      (parse_besteltijd raw).year ≠ 1970 →
      nu - 480 ≤ toMin (parse_besteltijd raw) →
      toMin (parse_besteltijd raw) ≤ nu + 480 →
      p ≠ "" → p ≠ "N/A" →
      ((verwerk nu (some p) b).1).berekendeEta = some p) ∧
    (∀ (nu : Int) (b : Bestelling) (raw : String),
      b.type = some "I" → isMpetRelevant b = true → b.besteltijd = some raw →
      (parse_besteltijd raw).year ≠ 1970 →
      nu - 480 ≤ toMin (parse_besteltijd raw) →
      toMin (parse_besteltijd raw) ≤ nu + 480 →
      ((verwerk nu none b).1).berekendeEta =
        some (if strContains (lowerS (b.entryPoint.getD "")) "wandelaar" then
                fmtMin (toMin (parse_besteltijd raw) + 360)
              else if strContains (lowerS (b.entryPoint.getD "")) "steenbank" then
                fmtMin (toMin (parse_besteltijd raw) + 420)
              else "N/A")) ∧
    ((verwerk tNu none bBasis).1).berekendeEta = some "05/12/25 20:30" := by
  refine ⟨fun nu b raw p ht hm hb hy hw1 hw2 hp1 hp2 => ?_,
    fun nu b raw ht hm hb hy hw1 hw2 => ?_, by decide⟩
  · have hs : showI nu false (some (toMin (parse_besteltijd raw))) = true := by
      simp [showI]
      omega
    rw [verwerk_reduce hm hb hy]
    have hv : (verwerkNaTijd nu (some p) b (lowerS (b.entryPoint.getD ""))
        false (some (toMin (parse_besteltijd raw)))).1.berekendeEta =
        some (etaVoorInkomend (some p) (some (toMin (parse_besteltijd raw)))
          (lowerS (b.entryPoint.getD ""))) := by
      simp [verwerkNaTijd, ht, hs]
    rw [hv]
    simp [etaVoorInkomend, hp1, hp2]
  · have hs : showI nu false (some (toMin (parse_besteltijd raw))) = true := by
      simp [showI]
      omega
    rw [verwerk_reduce hm hb hy]
    have hv : (verwerkNaTijd nu none b (lowerS (b.entryPoint.getD ""))
        false (some (toMin (parse_besteltijd raw)))).1.berekendeEta =
        some (etaVoorInkomend none (some (toMin (parse_besteltijd raw)))
          (lowerS (b.entryPoint.getD ""))) := by
      simp [verwerkNaTijd, ht, hs]
    rw [hv]
    simp [etaVoorInkomend]

/-- Witness for C8: the kept lookup value and the wandelaar fallback at
the concrete inbound order. -/
theorem claim_C8_witness :
    ((verwerk tNu (some "06-12 03:40") bBasis).1).berekendeEta =
        some "06-12 03:40" ∧
      ((verwerk tNu none bBasis).1).berekendeEta =
        some (if strContains (lowerS (bBasis.entryPoint.getD "")) "wandelaar"
              then fmtMin (toMin (parse_besteltijd "05/12/25 14:30") + 360)
              else if strContains (lowerS (bBasis.entryPoint.getD ""))
                  "steenbank" then
                fmtMin (toMin (parse_besteltijd "05/12/25 14:30") + 420)
              else "N/A") :=
  ⟨claim_C8.1 tNu bBasis "05/12/25 14:30" "06-12 03:40" rfl (by decide) rfl
      (by decide) (by decide) (by decide) (by decide) (by decide),
    claim_C8.2.1 tNu bBasis "05/12/25 14:30" rfl (by decide) rfl (by decide)
      (by decide) (by decide)⟩

/-- C9.  When the login outcome is failure the run changes nothing: the
stored comparison state, the snapshot history and the change log are
returned exactly as they were, for every credentials flag, harvest result,
lookup oracle, instant and prior store. -/
theorem claim_C9 (credsOk : Bool) (geoogst : List Bestelling)
    (oracle : String → Option String) (nu : Int) (st : Store) :
    mainRun credsOk false geoogst oracle nu st = st := by
  cases credsOk <;> simp [mainRun]

end LisCron
